import Mathlib

/-!
Shallow embedding of the audio relay pipeline (`AudioRelayService`):
session store, buffer accumulation, transcode orchestration with
temp-artifact cleanup, and the paced streaming protocol client.
External collaborators (the ffmpeg converter process and the remote
transcription socket) are modelled as environment parameters describing
their observable behaviour; the service code itself is translated
function by function.
-/

namespace AudioRelay

/-- A byte of audio data (`Buffer` elements). -/
abbrev Byte := Nat

/-- `RelaySession`: one in-progress audio relay.
`socket` models the `socket: WS | null` field: `true` means non-null.
`audioBuffer` is the ordered list of buffered chunks. -/
structure RelaySession where
  socket : Bool
  audioBuffer : List (List Byte)
  meetingJoinUrl : String
  isProcessing : Bool
deriving Repr, DecidableEq

/-- A string-keyed map modelled as an association list in insertion
order, mirroring a JS `Map` (used for the session store) and the
temp-file directory (path to file content). -/
abbrev SMap (α : Type) := List (String × α)

/-- `Map.has`. -/
def mapHas {α : Type} (st : SMap α) (k : String) : Bool :=
  st.any (fun p => p.1 == k)

/-- `Map.get`: the value stored at `k`, if present. -/
def mapGet {α : Type} (st : SMap α) (k : String) : Option α :=
  (st.find? (fun p => p.1 == k)).map (fun p => p.2)

/-- `Map.set`: replace in place when the key exists (JS `Map` keeps
insertion order), append otherwise. -/
def mapSet {α : Type} (st : SMap α) (k : String) (v : α) : SMap α :=
  if mapHas st k then st.map (fun p => if p.1 == k then (k, v) else p)
  else st ++ [(k, v)]

/-- `Map.delete`. -/
def mapDelete {α : Type} (st : SMap α) (k : String) : SMap α :=
  st.filter (fun p => p.1 != k)

/-- Number of entries stored under key `k` (a JS `Map` always has at
most one; the association list makes this a provable statement). -/
def countKey {α : Type} (st : SMap α) (k : String) : Nat :=
  (st.filter (fun p => p.1 == k)).length

/-- The session store `sessions : Map<string, RelaySession>`. -/
abbrev Store := SMap RelaySession

/-- The temp directory contents: path to file bytes. -/
abbrev Files := SMap (List Byte)

/-- `fs.existsSync`. -/
def fsExists (f : Files) (p : String) : Bool := mapHas f p

/-- `fs.writeFileSync` (creates or overwrites). -/
def fsWrite (f : Files) (p : String) (data : List Byte) : Files := mapSet f p data

/-- `fs.readFileSync`; only ever called behind an `existsSync` check. -/
def fsRead (f : Files) (p : String) : List Byte := (mapGet f p).getD []

/-- `fs.unlinkSync`. -/
def fsUnlink (f : Files) (p : String) : Files := mapDelete f p

/-- `create(sessionId, meetingJoinUrl)`: no-op when the id is present,
otherwise insert a fresh session with empty buffer, null socket and
`isProcessing = false`. -/
def create (st : Store) (sessionId meetingJoinUrl : String) : Store :=
  if mapHas st sessionId then st
  else
    mapSet st sessionId
      { socket := false, audioBuffer := [], meetingJoinUrl := meetingJoinUrl,
        isProcessing := false }

/-- `write(sessionId, chunk)`: throws `Relay not found for session _`
when the session is absent; otherwise pushes the chunk onto the tail of
`audioBuffer`.  The returned `Nat` is the new total chunk count the
method reports in its diagnostic log line
(`total chunks: ${relay.audioBuffer.length}`, read after the push). -/
def write (st : Store) (sessionId : String) (chunk : List Byte) :
    Except String (Store × Nat) :=
  match mapGet st sessionId with
  | none => .error ("Relay not found for session " ++ sessionId)
  | some relay =>
    let relay' := { relay with audioBuffer := relay.audioBuffer ++ [chunk] }
    .ok (mapSet st sessionId relay', relay'.audioBuffer.length)

/-- `updateUrl(sessionId, meetingJoinUrl)`: silent no-op when absent. -/
def updateUrl (st : Store) (sessionId meetingJoinUrl : String) : Store :=
  match mapGet st sessionId with
  | none => st
  | some relay => mapSet st sessionId { relay with meetingJoinUrl := meetingJoinUrl }

/-- `stop(sessionId)`: closes the socket if open (no further observable
state in the model) and removes the session from the store; no-op when
the session is absent. -/
def stop (st : Store) (sessionId : String) : Store :=
  match mapGet st sessionId with
  | none => st
  | some _ => mapDelete st sessionId

/-- A frame sent over the transcription socket: the
`StartTranscription` control message, a binary PCM chunk, or the
`StopTranscription` control message. -/
inductive Frame where
  | start
  | binary (data : List Byte)
  | stop
deriving Repr, DecidableEq

/-- Outcome of one promise-based phase: resolved, rejected with an
error message, or never settled (neither `resolve` nor `reject` was
called, so an `await` on it suspends forever). -/
inductive PResult where
  | ok
  | err (msg : String)
  | hung
deriving Repr, DecidableEq

/-- Observable behaviour of the remote socket for one `sendToTingwu`
invocation.  `connectError = some msg` means the socket's `error` event
fires (with that message) instead of `open`.  `closesBefore = some k`
means the socket has left the `OPEN` state by the time the send loop's
iteration `k` (0-based) checks `readyState`, e.g. via a concurrent
`stop`. -/
structure SocketRun where
  connectError : Option String
  closesBefore : Option Nat
deriving Repr, DecidableEq

/-- Whether the send loop's `readyState !== WS.OPEN` check fires at
iteration `i`. -/
def socketClosedAt (closesBefore : Option Nat) (i : Nat) : Bool :=
  match closesBefore with
  | some k => k ≤ i
  | none => false

/-- `sendNextChunk`: starting at `offset` into `pcmData` (iteration
counter `i`), returns the frames sent by the remaining iterations of
the loop and whether the promise was settled (`resolve` reached).  Each
iteration first checks `readyState` (bailing out silently, settling
nothing), then either sends the `StopTranscription` frame and resolves
(when `offset >= pcmData.length`) or sends
`pcmData.subarray(offset, min(offset+1024, length))` and recurses with
`offset = end`. -/
def sendChunks (pcmData : List Byte) (closesBefore : Option Nat)
    (offset i : Nat) : List Frame × Bool :=
  if socketClosedAt closesBefore i then ([], false)
  else if pcmData.length ≤ offset then ([Frame.stop], true)
  else
    let e := min (offset + 1024) pcmData.length
    let chunk := (pcmData.drop offset).take (e - offset)
    let rest := sendChunks pcmData closesBefore e (i + 1)
    (Frame.binary chunk :: rest.1, rest.2)
termination_by pcmData.length - offset
decreasing_by
  simp only [not_le] at *
  rcases Nat.le_total (offset + 1024) pcmData.length with h | h
  · simp [Nat.min_def, *]
    omega
  · simp [Nat.min_def, *]

/-- `sendToTingwu(relay, pcmData, sessionId)`, as seen from the
enclosing `await`: on a connection error the promise rejects and no
frame is sent; otherwise the `open` handler sends the
`StartTranscription` control frame and (after the 500 ms settle delay)
runs the paced send loop.  The promise resolves only through the loop's
stop branch; if the loop bails out on a closed socket the promise is
never settled. -/
def sendToTingwu (sock : SocketRun) (pcmData : List Byte) :
    PResult × List Frame :=
  match sock.connectError with
  | some msg => (.err msg, [])
  | none =>
    let run := sendChunks pcmData sock.closesBefore 0 0
    (if run.2 then .ok else .hung, Frame.start :: run.1)

/-- Observable behaviour of one ffmpeg child process:
`exit code` means the `close` event fires with that code, `procError`
means the `error` event fires with that message.  `output` is the
content the process wrote to the output file (`none`: no file
produced). -/
inductive FfmpegOutcome where
  | exit (code : Nat)
  | procError (msg : String)
deriving Repr, DecidableEq

structure FfmpegRun where
  outcome : FfmpegOutcome
  output : Option (List Byte)
deriving Repr, DecidableEq

/-- `transcodeWithFfmpeg`: resolves on exit code 0, rejects with
`ffmpeg exited with code _` on a non-zero exit, and rejects with the
process error's message when the `error` event fires. -/
def transcodeWithFfmpeg (run : FfmpegRun) : Except String Unit :=
  match run.outcome with
  | .exit 0 => .ok ()
  | .exit c => .error ("ffmpeg exited with code " ++ toString c)
  | .procError msg => .error msg

/-- `path.join(os.tmpdir(), sessionId + "-input.tmp")` (the tmpdir
component is common to both names and elided). -/
def tempInputFile (sessionId : String) : String := sessionId ++ "-input.tmp"

/-- `path.join(os.tmpdir(), sessionId + "-output.pcm")`. -/
def tempOutputFile (sessionId : String) : String := sessionId ++ "-output.pcm"

/-- Environment for one `processAndSend` call: behaviour of the ffmpeg
child process and of the remote socket. -/
structure Env where
  ffmpeg : FfmpegRun
  socket : SocketRun
deriving Repr, DecidableEq

/-- Session store plus temp directory. -/
structure SysState where
  sessions : Store
  files : Files
deriving Repr, DecidableEq

/-- Observable result of one `processAndSend(sessionId)` call.
`result = .hung` means the underlying promise never settles, so the
call never returns (and its `finally` block never runs).
`frames` are the frames sent over the socket, `connected` whether a
socket was constructed, `transcoded` whether ffmpeg was spawned, and
`processedAudio` the concatenated buffer contents consumed
(`Buffer.concat(relay.audioBuffer)`), when the guards were passed. -/
structure PRun where
  result : PResult
  state : SysState
  frames : List Frame
  connected : Bool
  transcoded : Bool
  processedAudio : Option (List Byte)
deriving Repr, DecidableEq

/-- The body of `processAndSend`\'s `try` block after the temp input
file is written: transcode, validate the output artifact (must exist
and be non-empty), read it back and stream it via `sendToTingwu`
(which stores the socket in the session before the connection outcome
is known).  Returns the phase outcome, the session store as mutated so
far, the frames sent, and whether a socket was constructed. -/
def tryStep (env : Env) (sessionId : String) (sessions1 : Store)
    (relay1 : RelaySession) (files2 : Files) :
    PResult × Store × List Frame × Bool :=
  match transcodeWithFfmpeg env.ffmpeg with
  | .error msg => (.err msg, sessions1, [], false)
  | .ok _ =>
    if fsExists files2 (tempOutputFile sessionId) then
      let aacData := fsRead files2 (tempOutputFile sessionId)
      if aacData.length = 0 then
        (.err "FFmpeg produced empty output", sessions1, [], false)
      else
        let relay2 := { relay1 with socket := true }
        let sessions2 := mapSet sessions1 sessionId relay2
        let sent := sendToTingwu env.socket aacData
        (sent.1, sessions2, sent.2, true)
    else
      (.err "FFmpeg output file not created", sessions1, [], false)

/-- The `finally` block of `processAndSend`: reset `isProcessing` on
the session object and unlink both temp files. -/
def runFinally (sessionId : String) (sess : Store) (files2 : Files) : SysState :=
  let sess' :=
    match mapGet sess sessionId with
    | some r => mapSet sess sessionId { r with isProcessing := false }
    | none => sess
  let files' :=
    fsUnlink (fsUnlink files2 (tempInputFile sessionId)) (tempOutputFile sessionId)
  { sessions := sess', files := files' }

/-- `processAndSend(sessionId)`.  Faithful to the source: missing
session throws; empty buffer and already-processing are soft no-ops;
otherwise `isProcessing` is set, the concatenated buffer is written to
the temp input file, and the `try` block (`tryStep`) transcodes,
validates and streams it; the `finally` block (`runFinally`) resets
`isProcessing` and unlinks both temp files — unless the streaming
promise never settles, in which case the `await` suspends forever and
the `finally` block is never reached. -/
def processAndSend (env : Env) (st : SysState) (sessionId : String) : PRun :=
  match mapGet st.sessions sessionId with
  | none =>
    { result := .err ("Relay not found for session " ++ sessionId),
      state := st, frames := [], connected := false, transcoded := false,
      processedAudio := none }
  | some relay =>
    if relay.audioBuffer.length = 0 then
      { result := .ok, state := st, frames := [], connected := false,
        transcoded := false, processedAudio := none }
    else if relay.isProcessing then
      { result := .ok, state := st, frames := [], connected := false,
        transcoded := false, processedAudio := none }
    else
      let relay1 := { relay with isProcessing := true }
      let sessions1 := mapSet st.sessions sessionId relay1
      let fullAudio := relay.audioBuffer.flatten
      let files1 := fsWrite st.files (tempInputFile sessionId) fullAudio
      let files2 :=
        match env.ffmpeg.output with
        | some data => fsWrite files1 (tempOutputFile sessionId) data
        | none => files1
      match tryStep env sessionId sessions1 relay1 files2 with
      | (res, sess, fs, conn) =>
        match res with
        | .hung =>
          { result := .hung, state := { sessions := sess, files := files2 },
            frames := fs, connected := conn, transcoded := true,
            processedAudio := some fullAudio }
        | _ =>
          { result := res, state := runFinally sessionId sess files2,
            frames := fs, connected := conn, transcoded := true,
            processedAudio := some fullAudio }

/-- The PCM chunking the send loop performs: successive 1024-byte
slices, the final one possibly shorter.  Used to state properties of
`sendChunks`. -/
def pcmChunks (l : List Byte) : List (List Byte) :=
  if l.isEmpty then []
  else l.take 1024 :: pcmChunks (l.drop 1024)
termination_by l.length
decreasing_by
  simp_all [List.isEmpty_iff]
  cases l with
  | nil => simp_all
  | cons a t => simp

/-- Data carried by the binary frames of a frame list, in order. -/
def binData (fs : List Frame) : List (List Byte) :=
  fs.filterMap (fun f => match f with | .binary d => some d | _ => none)

/-! ### Map and file-system lemmas -/

lemma mapHas_eq_isSome {α : Type} (st : SMap α) (k : String) :
    mapHas st k = (mapGet st k).isSome := by
  induction st with
  | nil => rfl
  | cons p t ih =>
    simp only [mapHas, mapGet, List.any_cons, List.find?_cons]
    cases h : (p.1 == k) with
    | true => simp
    | false => simpa [mapHas, mapGet] using ih

lemma find?_none_of_not_has {α : Type} (st : SMap α) (k : String)
    (h : mapHas st k = false) :
    st.find? (fun p => p.1 == k) = none := by
  rw [List.find?_eq_none]
  intro p hp
  simp only [mapHas, List.any_eq_false] at h
  simpa using h p hp

lemma mapGet_eq_none_of_not_has {α : Type} (st : SMap α) (k : String)
    (h : mapHas st k = false) : mapGet st k = none := by
  simp [mapGet, find?_none_of_not_has st k h]

lemma mapGet_map_replace {α : Type} (st : SMap α) (k : String) (v : α)
    (h : mapHas st k = true) :
    mapGet (st.map (fun p => if p.1 == k then (k, v) else p)) k = some v := by
  induction st with
  | nil => simp [mapHas] at h
  | cons p t ih =>
    simp only [List.map_cons]
    cases hp : (p.1 == k) with
    | true =>
      have hhead : (if false = true then (k, v) else p) = p := rfl
      have hhead' : (if true = true then (k, v) else p) = (k, v) := rfl
      rw [hhead']
      simp only [mapGet, List.find?_cons, beq_self_eq_true]
      rfl
    | false =>
      have h' : mapHas t k = true := by
        simpa [mapHas, List.any_cons, hp] using h
      have hhead : (if false = true then (k, v) else p) = p := rfl
      rw [hhead]
      simp only [mapGet, List.find?_cons, hp]
      simpa only [mapGet] using ih h'

lemma mapGet_set_self {α : Type} (st : SMap α) (k : String) (v : α) :
    mapGet (mapSet st k v) k = some v := by
  unfold mapSet
  by_cases hh : mapHas st k
  · simpa [hh] using mapGet_map_replace st k v hh
  · rw [if_neg hh]
    simp only [mapGet, List.find?_append,
      find?_none_of_not_has st k (by simpa using hh), Option.none_orElse,
      List.find?_cons, beq_self_eq_true]
    rfl

lemma mapGet_map_replace_ne {α : Type} (st : SMap α) (k : String) (v : α)
    (k' : String) (h : ¬ k' = k) :
    mapGet (st.map (fun p => if p.1 == k then (k, v) else p)) k' =
      mapGet st k' := by
  induction st with
  | nil => rfl
  | cons p t ih =>
    simp only [List.map_cons]
    have h1 : (k == k') = false := by
      simp only [beq_eq_false_iff_ne]
      exact fun hk => h hk.symm
    cases hp : (p.1 == k) with
    | true =>
      have hpk : p.1 = k := by simpa using hp
      have h2 : (p.1 == k') = false := by rw [hpk]; exact h1
      have hhead : (if true = true then (k, v) else p) = (k, v) := rfl
      rw [hhead]
      simp only [mapGet, List.find?_cons, h1, h2]
      simpa only [mapGet] using ih
    | false =>
      have hhead : (if false = true then (k, v) else p) = p := rfl
      rw [hhead]
      simp only [mapGet, List.find?_cons]
      cases hp' : (p.1 == k') with
      | true => rfl
      | false => simpa only [mapGet] using ih

lemma mapGet_set_ne {α : Type} (st : SMap α) (k : String) (v : α) (k' : String)
    (h : ¬ k' = k) : mapGet (mapSet st k v) k' = mapGet st k' := by
  unfold mapSet
  by_cases hh : mapHas st k
  · simpa only [hh, if_true] using mapGet_map_replace_ne st k v k' h
  · rw [if_neg hh]
    have h1 : ((k, v).1 == k') = false := by
      simp only [beq_eq_false_iff_ne]
      exact fun hk => h hk.symm
    simp only [mapGet, List.find?_append, List.find?_cons, h1,
      List.find?_nil, Option.orElse_none, Option.or_none]

lemma mapHas_set_self {α : Type} (st : SMap α) (k : String) (v : α) :
    mapHas (mapSet st k v) k = true := by
  rw [mapHas_eq_isSome, mapGet_set_self]
  rfl

lemma countKey_eq_zero_of_not_has {α : Type} (st : SMap α) (k : String)
    (h : mapHas st k = false) : countKey st k = 0 := by
  unfold countKey
  simp only [mapHas, List.any_eq_false] at h
  rw [List.length_eq_zero, List.filter_eq_nil_iff]
  exact fun p hp => h p hp

lemma countKey_pos_of_has {α : Type} (st : SMap α) (k : String)
    (h : mapHas st k = true) : 1 ≤ countKey st k := by
  unfold countKey
  simp only [mapHas, List.any_eq_true] at h
  obtain ⟨p, hmem, hp⟩ := h
  have : p ∈ st.filter (fun p => p.1 == k) := List.mem_filter.mpr ⟨hmem, hp⟩
  have := List.length_pos.mpr (List.ne_nil_of_mem this)
  omega

lemma countKey_append_single {α : Type} (st : SMap α) (k : String) (v : α) :
    countKey (st ++ [(k, v)]) k = countKey st k + 1 := by
  unfold countKey
  rw [List.filter_append]
  simp

lemma fsExists_unlink_self (f : Files) (p : String) :
    fsExists (fsUnlink f p) p = false := by
  unfold fsExists fsUnlink mapHas mapDelete
  rw [List.any_eq_false]
  intro a ha
  have := (List.mem_filter.mp ha).2
  simp only [bne_iff_ne, ne_eq, decide_eq_true_eq] at this
  simp [this]

lemma fsExists_unlink_ne (f : Files) (p q : String) (h : ¬ p = q) :
    fsExists (fsUnlink f q) p = fsExists f p := by
  unfold fsExists fsUnlink mapHas mapDelete
  induction f with
  | nil => rfl
  | cons a t ih =>
    by_cases ha : a.1 = q
    · have h1 : (a.1 != q) = false := by simp [ha]
      have h2 : (a.1 == p) = false := by
        simp only [beq_eq_false_iff_ne, ha]
        exact fun hk => h hk.symm
      simp [List.filter_cons, h1, List.any_cons, h2, ih]
    · have h1 : (a.1 != q) = true := by simp [ha]
      simp [List.filter_cons, h1, List.any_cons, ih]

lemma fsExists_write_self (f : Files) (p : String) (d : List Byte) :
    fsExists (fsWrite f p d) p = true := by
  unfold fsExists fsWrite
  exact mapHas_set_self f p d

lemma fsExists_write_ne (f : Files) (p q : String) (d : List Byte)
    (h : ¬ p = q) : fsExists (fsWrite f q d) p = fsExists f p := by
  unfold fsExists fsWrite
  rw [mapHas_eq_isSome, mapGet_set_ne _ _ _ _ h, ← mapHas_eq_isSome]

lemma fsRead_write_self (f : Files) (p : String) (d : List Byte) :
    fsRead (fsWrite f p d) p = d := by
  unfold fsRead fsWrite
  rw [mapGet_set_self]
  rfl

/-! ### Chunking lemmas -/

lemma pcmChunks_nil : pcmChunks [] = [] := by
  rw [pcmChunks]
  rfl

lemma pcmChunks_cons (l : List Byte) (h : ¬ l = []) :
    pcmChunks l = l.take 1024 :: pcmChunks (l.drop 1024) := by
  rw [pcmChunks]
  simp [List.isEmpty_iff, h]

lemma pcmChunks_eq_nil_iff (l : List Byte) : pcmChunks l = [] ↔ l = [] := by
  constructor
  · intro h
    by_contra hne
    rw [pcmChunks_cons l hne] at h
    exact List.cons_ne_nil _ _ h
  · intro h
    subst h
    exact pcmChunks_nil

lemma pcmChunks_flatten (l : List Byte) : (pcmChunks l).flatten = l := by
  induction l using pcmChunks.induct with
  | case1 l hl =>
    rw [List.isEmpty_iff] at hl
    subst hl
    rw [pcmChunks_nil]
    rfl
  | case2 l hl ih =>
    rw [Bool.not_eq_true, List.isEmpty_eq_false] at hl
    rw [pcmChunks_cons l hl, List.flatten_cons, ih, List.take_append_drop]

lemma pcmChunks_length (l : List Byte) :
    (pcmChunks l).length = (l.length + 1023) / 1024 := by
  induction l using pcmChunks.induct with
  | case1 l hl =>
    rw [List.isEmpty_iff] at hl
    subst hl
    rw [pcmChunks_nil]
    rfl
  | case2 l hl ih =>
    rw [Bool.not_eq_true, List.isEmpty_eq_false] at hl
    have hpos : 0 < l.length := List.length_pos.mpr hl
    rw [pcmChunks_cons l hl, List.length_cons, ih, List.length_drop]
    omega

lemma pcmChunks_sizes (l : List Byte) : ∀ b ∈ pcmChunks l, b.length ≤ 1024 := by
  induction l using pcmChunks.induct with
  | case1 l hl =>
    rw [List.isEmpty_iff] at hl
    subst hl
    rw [pcmChunks_nil]
    intro b hb
    simp at hb
  | case2 l hl ih =>
    rw [Bool.not_eq_true, List.isEmpty_eq_false] at hl
    rw [pcmChunks_cons l hl]
    intro b hb
    rcases List.mem_cons.mp hb with hb | hb
    · subst hb
      rw [List.length_take]
      exact Nat.min_le_left _ _
    · exact ih b hb

lemma pcmChunks_dropLast_sizes (l : List Byte) :
    ∀ b ∈ (pcmChunks l).dropLast, b.length = 1024 := by
  induction l using pcmChunks.induct with
  | case1 l hl =>
    rw [List.isEmpty_iff] at hl
    subst hl
    rw [pcmChunks_nil]
    intro b hb
    simp at hb
  | case2 l hl ih =>
    rw [Bool.not_eq_true, List.isEmpty_eq_false] at hl
    rw [pcmChunks_cons l hl]
    by_cases hd : l.drop 1024 = []
    · rw [(pcmChunks_eq_nil_iff _).mpr hd]
      intro b hb
      simp at hb
    · have hne : ¬ pcmChunks (l.drop 1024) = [] := by
        rw [pcmChunks_eq_nil_iff]
        exact hd
      rw [List.dropLast_cons_of_ne_nil hne]
      intro b hb
      rcases List.mem_cons.mp hb with hb | hb
      · subst hb
        have hlen : 1024 < l.length := by
          by_contra hle
          exact hd (List.drop_eq_nil_of_le (by omega))
        rw [List.length_take]
        omega
      · exact ih b hb

/-- Step bridge: the slice the loop sends starting at `offset` is the
head 1024-byte chunk of the remaining data. -/
lemma slice_eq_take (pcm : List Byte) (offset : Nat) :
    (pcm.drop offset).take (min (offset + 1024) pcm.length - offset) =
      (pcm.drop offset).take 1024 := by
  rw [List.take_eq_take]
  rw [List.length_drop]
  omega

/-- Step bridge: advancing the loop's offset to `end` drops the head
1024-byte chunk of the remaining data. -/
lemma drop_min_eq (pcm : List Byte) (offset : Nat) :
    pcm.drop (min (offset + 1024) pcm.length) = (pcm.drop offset).drop 1024 := by
  rw [List.drop_drop]
  rcases Nat.le_total (offset + 1024) pcm.length with hc | hc
  · have h2 : min (offset + 1024) pcm.length = offset + 1024 := by omega
    rw [h2, Nat.add_comm offset 1024]
  · have h1 : min (offset + 1024) pcm.length = pcm.length := by omega
    rw [h1, List.drop_length, List.drop_eq_nil_of_le (by omega)]

/-- With the socket open throughout, the send loop emits the 1024-byte
chunking of the remaining payload followed by the stop frame, and
resolves. -/
lemma sendChunks_open (pcm : List Byte) (offset i : Nat) :
    sendChunks pcm none offset i =
      ((pcmChunks (pcm.drop offset)).map Frame.binary ++ [Frame.stop], true) := by
  induction offset, i using sendChunks.induct pcm none with
  | case1 offset i h => simp [socketClosedAt] at h
  | case2 offset i h1 h2 =>
    rw [sendChunks]
    rw [List.drop_eq_nil_of_le h2, pcmChunks_nil]
    simp [socketClosedAt, h2]
  | case3 offset i h1 h2 e ih =>
    rw [sendChunks]
    simp only [socketClosedAt, Bool.false_eq_true, if_false, if_neg h2]
    have hlt : offset < pcm.length := by omega
    have hne : ¬ pcm.drop offset = [] := by
      intro hnil
      have := List.drop_eq_nil_iff.mp hnil
      omega
    rw [ih, slice_eq_take, drop_min_eq, pcmChunks_cons _ hne]
    simp

/-- With the socket observed closed from iteration `k` on (`k` at most
the number of binary frames), the send loop emits exactly the first
`k - i` remaining binary frames, no stop frame, and never settles. -/
lemma sendChunks_closed (pcm : List Byte) (k : Nat) : ∀ (offset i : Nat),
    i ≤ k → k - i ≤ (pcmChunks (pcm.drop offset)).length →
    sendChunks pcm (some k) offset i =
      (((pcmChunks (pcm.drop offset)).take (k - i)).map Frame.binary, false) := by
  intro offset i
  induction offset, i using sendChunks.induct pcm (some k) with
  | case1 offset i h =>
    intro hik hk
    simp only [socketClosedAt, decide_eq_true_eq] at h
    have h0 : k - i = 0 := by omega
    rw [sendChunks]
    simp [socketClosedAt, h0, h]
  | case2 offset i h1 h2 =>
    intro hik hk
    simp only [socketClosedAt, decide_eq_true_eq] at h1
    have hik' : i < k := by omega
    rw [List.drop_eq_nil_of_le h2, pcmChunks_nil] at hk
    simp at hk
    omega
  | case3 offset i h1 h2 e ih =>
    intro hik hk
    simp only [socketClosedAt, decide_eq_true_eq] at h1
    have hik' : i < k := by omega
    rw [sendChunks]
    simp only [socketClosedAt, if_neg h2]
    rw [if_neg (by simp [h1])]
    have hlt : offset < pcm.length := by omega
    have hne : ¬ pcm.drop offset = [] := by
      intro hnil
      have := List.drop_eq_nil_iff.mp hnil
      omega
    rw [pcmChunks_cons _ hne] at hk ⊢
    rw [List.length_cons] at hk
    have hrec := ih (by omega) (by rw [drop_min_eq]; omega)
    rw [drop_min_eq] at hrec
    rw [hrec, slice_eq_take]
    have hsucc : k - i = (k - (i + 1)) + 1 := by omega
    rw [hsucc, List.take_succ_cons]
    simp

lemma tempFiles_ne (sid : String) : ¬ tempInputFile sid = tempOutputFile sid := by
  intro h
  have hl := congrArg String.length h
  have h1 : ("-input.tmp" : String).length = 10 := by decide
  have h2 : ("-output.pcm" : String).length = 11 := by decide
  rw [tempInputFile, tempOutputFile, String.length_append, String.length_append,
    h1, h2] at hl
  omega

/-! ### Exit-path lemmas for processAndSend -/

/-- The try block either leaves the store as it found it (no streaming
attempt, `conn = false`) or stores the socket in the session
(`conn = true`). -/
lemma tryStep_store (env : Env) (sid : String) (sess1 : Store)
    (relay1 : RelaySession) (files2 : Files) :
    (tryStep env sid sess1 relay1 files2).2.1 =
      (if (tryStep env sid sess1 relay1 files2).2.2.2 then
        mapSet sess1 sid { relay1 with socket := true } else sess1) := by
  unfold tryStep
  cases htr : transcodeWithFfmpeg env.ffmpeg with
  | error msg => simp
  | ok u =>
    by_cases hex : fsExists files2 (tempOutputFile sid) = true
    · rw [if_pos hex]
      by_cases hal : (fsRead files2 (tempOutputFile sid)).length = 0
      · simp [hal]
      · simp [hal]
    · rw [if_neg hex]
      simp

/-- The finally block removes both temp artifacts and resets the
session\'s `isProcessing` flag (the rest of the session is kept). -/
lemma runFinally_spec (sid : String) (sess : Store) (files2 : Files)
    (r : RelaySession) (hget : mapGet sess sid = some r) :
    fsExists (runFinally sid sess files2).files (tempInputFile sid) = false ∧
    fsExists (runFinally sid sess files2).files (tempOutputFile sid) = false ∧
    mapGet (runFinally sid sess files2).sessions sid =
      some { r with isProcessing := false } := by
  unfold runFinally
  simp only [hget]
  refine ⟨?_, ?_, ?_⟩
  · rw [fsExists_unlink_ne _ _ _ (tempFiles_ne sid), fsExists_unlink_self]
  · rw [fsExists_unlink_self]
  · exact mapGet_set_self sess sid _

/-- Master exit-path lemma: once the guards are passed, a
`processAndSend` call either hangs (the promise never settles) or ends
with both temp artifacts removed, `isProcessing` reset, and the socket
field equal to its prior value unless a streaming attempt set it. -/
lemma processAndSend_cleanup_cases (env : Env) (st : SysState) (sid : String)
    (relay : RelaySession)
    (h1 : mapGet st.sessions sid = some relay)
    (h2 : ¬ relay.audioBuffer = [])
    (h3 : relay.isProcessing = false) :
    (processAndSend env st sid).result = .hung ∨
    (fsExists (processAndSend env st sid).state.files (tempInputFile sid) = false ∧
     fsExists (processAndSend env st sid).state.files (tempOutputFile sid) = false ∧
     (mapGet (processAndSend env st sid).state.sessions sid).map
       RelaySession.isProcessing = some false ∧
     (mapGet (processAndSend env st sid).state.sessions sid).map
       RelaySession.socket =
         some (relay.socket || (processAndSend env st sid).connected)) := by
  have hlen : ¬ relay.audioBuffer.length = 0 := by
    simpa [List.length_eq_zero] using h2
  have hproc : ¬ relay.isProcessing = true := by simp [h3]
  unfold processAndSend
  simp only [h1]
  rw [if_neg hlen, if_neg hproc]
  rcases htry : tryStep env sid
      (mapSet st.sessions sid { relay with isProcessing := true })
      { relay with isProcessing := true }
      (match env.ffmpeg.output with
        | some data =>
          fsWrite (fsWrite st.files (tempInputFile sid) relay.audioBuffer.flatten)
            (tempOutputFile sid) data
        | none =>
          fsWrite st.files (tempInputFile sid) relay.audioBuffer.flatten)
    with ⟨res, sess, fs, conn⟩
  dsimp only
  have hstore := tryStep_store env sid
      (mapSet st.sessions sid { relay with isProcessing := true })
      { relay with isProcessing := true }
      (match env.ffmpeg.output with
        | some data =>
          fsWrite (fsWrite st.files (tempInputFile sid) relay.audioBuffer.flatten)
            (tempOutputFile sid) data
        | none =>
          fsWrite st.files (tempInputFile sid) relay.audioBuffer.flatten)
  rw [htry] at hstore
  dsimp only at hstore
  have hsget : mapGet sess sid =
      some (if conn then
        { relay with isProcessing := true, socket := true }
      else { relay with isProcessing := true }) := by
    cases conn with
    | true =>
      simp at hstore ⊢
      rw [hstore, mapGet_set_self]
    | false =>
      simp at hstore ⊢
      rw [hstore, mapGet_set_self]
  cases res with
  | hung => exact Or.inl rfl
  | ok =>
    refine Or.inr ?_
    obtain ⟨hf1, hf2, hs⟩ := runFinally_spec sid sess _ _ hsget
    refine ⟨hf1, hf2, ?_, ?_⟩
    · rw [hs]
      cases conn with
      | true => rfl
      | false => rfl
    · rw [hs]
      cases conn with
      | true => simp
      | false => simp
  | err e =>
    refine Or.inr ?_
    obtain ⟨hf1, hf2, hs⟩ := runFinally_spec sid sess _ _ hsget
    refine ⟨hf1, hf2, ?_, ?_⟩
    · rw [hs]
      cases conn with
      | true => rfl
      | false => rfl
    · rw [hs]
      cases conn with
      | true => simp
      | false => simp


/-- After the guards are passed, the session record that remains in the
store keeps its buffer: `processAndSend` never clears `audioBuffer`,
and the processed audio is always the flattened buffer. -/
lemma processAndSend_session_after (env : Env) (st : SysState) (sid : String)
    (relay : RelaySession)
    (h1 : mapGet st.sessions sid = some relay)
    (h2 : ¬ relay.audioBuffer = [])
    (h3 : relay.isProcessing = false) :
    (processAndSend env st sid).processedAudio = some relay.audioBuffer.flatten ∧
    ∃ relay' : RelaySession,
      mapGet (processAndSend env st sid).state.sessions sid = some relay' ∧
      relay'.audioBuffer = relay.audioBuffer ∧
      (¬ (processAndSend env st sid).result = .hung →
        relay'.isProcessing = false) := by
  have hlen : ¬ relay.audioBuffer.length = 0 := by
    simpa [List.length_eq_zero] using h2
  have hproc : ¬ relay.isProcessing = true := by simp [h3]
  unfold processAndSend
  simp only [h1]
  rw [if_neg hlen, if_neg hproc]
  rcases htry : tryStep env sid
      (mapSet st.sessions sid { relay with isProcessing := true })
      { relay with isProcessing := true }
      (match env.ffmpeg.output with
        | some data =>
          fsWrite (fsWrite st.files (tempInputFile sid) relay.audioBuffer.flatten)
            (tempOutputFile sid) data
        | none =>
          fsWrite st.files (tempInputFile sid) relay.audioBuffer.flatten)
    with ⟨res, sess, fs, conn⟩
  dsimp only
  have hstore := tryStep_store env sid
      (mapSet st.sessions sid { relay with isProcessing := true })
      { relay with isProcessing := true }
      (match env.ffmpeg.output with
        | some data =>
          fsWrite (fsWrite st.files (tempInputFile sid) relay.audioBuffer.flatten)
            (tempOutputFile sid) data
        | none =>
          fsWrite st.files (tempInputFile sid) relay.audioBuffer.flatten)
  rw [htry] at hstore
  dsimp only at hstore
  have hsget : mapGet sess sid =
      some (if conn then
        { relay with isProcessing := true, socket := true }
      else { relay with isProcessing := true }) := by
    cases conn with
    | true =>
      simp at hstore ⊢
      rw [hstore, mapGet_set_self]
    | false =>
      simp at hstore ⊢
      rw [hstore, mapGet_set_self]
  cases res with
  | hung =>
    refine ⟨rfl, ?_⟩
    refine ⟨_, hsget, ?_, ?_⟩
    · cases conn with
      | true => rfl
      | false => rfl
    · intro hne
      exact absurd rfl hne
  | ok =>
    obtain ⟨_, _, hs⟩ := runFinally_spec sid sess _ _ hsget
    refine ⟨rfl, ?_⟩
    refine ⟨_, hs, ?_, ?_⟩
    · cases conn with
      | true => rfl
      | false => rfl
    · intro _
      rfl
  | err e =>
    obtain ⟨_, _, hs⟩ := runFinally_spec sid sess _ _ hsget
    refine ⟨rfl, ?_⟩
    refine ⟨_, hs, ?_, ?_⟩
    · cases conn with
      | true => rfl
      | false => rfl
    · intro _
      rfl

/-- Full characterization of a benign run: ffmpeg exits 0 producing
non-empty output `d`, the socket opens and stays open.  The call
resolves, streams start/chunks/stop, and runs the finally block. -/
lemma processAndSend_benign (env : Env) (st : SysState) (sid : String)
    (relay : RelaySession) (d : List Byte)
    (h1 : mapGet st.sessions sid = some relay)
    (h2 : ¬ relay.audioBuffer = [])
    (h3 : relay.isProcessing = false)
    (ho : env.ffmpeg.outcome = .exit 0)
    (hd : env.ffmpeg.output = some d)
    (hdne : ¬ d = [])
    (hce : env.socket.connectError = none)
    (hcb : env.socket.closesBefore = none) :
    processAndSend env st sid =
      { result := .ok,
        state := runFinally sid
          (mapSet (mapSet st.sessions sid { relay with isProcessing := true }) sid
            { relay with isProcessing := true, socket := true })
          (fsWrite (fsWrite st.files (tempInputFile sid) relay.audioBuffer.flatten)
            (tempOutputFile sid) d),
        frames := Frame.start :: ((pcmChunks d).map Frame.binary ++ [Frame.stop]),
        connected := true, transcoded := true,
        processedAudio := some relay.audioBuffer.flatten } := by
  have hlen : ¬ relay.audioBuffer.length = 0 := by
    simpa [List.length_eq_zero] using h2
  have hproc : ¬ relay.isProcessing = true := by simp [h3]
  have htc : transcodeWithFfmpeg env.ffmpeg = .ok () := by
    unfold transcodeWithFfmpeg
    simp only [ho]
  have hst : sendToTingwu env.socket d =
      (.ok, Frame.start :: ((pcmChunks d).map Frame.binary ++ [Frame.stop])) := by
    unfold sendToTingwu
    simp only [hce, hcb]
    rw [sendChunks_open, List.drop_zero]
    simp
  have htry : tryStep env sid
      (mapSet st.sessions sid { relay with isProcessing := true })
      { relay with isProcessing := true }
      (fsWrite (fsWrite st.files (tempInputFile sid) relay.audioBuffer.flatten)
        (tempOutputFile sid) d) =
      (.ok,
       mapSet (mapSet st.sessions sid { relay with isProcessing := true }) sid
         { relay with isProcessing := true, socket := true },
       Frame.start :: ((pcmChunks d).map Frame.binary ++ [Frame.stop]), true) := by
    unfold tryStep
    simp only [htc]
    rw [if_pos (fsExists_write_self _ _ _), fsRead_write_self]
    rw [if_neg (by simpa [List.length_eq_zero] using hdne)]
    simp only [hst]
  unfold processAndSend
  simp only [h1]
  rw [if_neg hlen, if_neg hproc]
  simp only [hd, htry]

/-! ### Claim theorems -/

/-- C1: for every non-empty PCM payload of N bytes, a single successful
streaming phase sends exactly one start-control frame, then
`ceil(N/1024)` binary frames each of at most 1024 bytes (only the final
frame may be shorter) whose concatenation in send order equals the
payload, then exactly one stop-control frame; no binary frame precedes
the start frame or follows the stop frame. -/
theorem relay_stream_frame_sequence (pcm : List Byte) (_h : ¬ pcm = []) :
    ∃ bs : List (List Byte),
      sendToTingwu ⟨none, none⟩ pcm =
        (.ok, Frame.start :: (bs.map Frame.binary ++ [Frame.stop])) ∧
      bs.flatten = pcm ∧
      bs.length = (pcm.length + 1023) / 1024 ∧
      (∀ b ∈ bs, b.length ≤ 1024) ∧
      (∀ b ∈ bs.dropLast, b.length = 1024) := by
  refine ⟨pcmChunks pcm, ?_, pcmChunks_flatten pcm, pcmChunks_length pcm,
    pcmChunks_sizes pcm, pcmChunks_dropLast_sizes pcm⟩
  have hdef : sendToTingwu ⟨none, none⟩ pcm =
      (if (sendChunks pcm none 0 0).2 then .ok else .hung,
       Frame.start :: (sendChunks pcm none 0 0).1) := rfl
  rw [hdef, sendChunks_open, List.drop_zero]
  simp

/-- Witness for C1 at the concrete payload `[0, 1, 2]`. -/
theorem relay_stream_frame_sequence_witness :
    ¬ ([0, 1, 2] : List Byte) = [] ∧
    (∃ bs : List (List Byte),
      sendToTingwu ⟨none, none⟩ [0, 1, 2] =
        (.ok, Frame.start :: (bs.map Frame.binary ++ [Frame.stop])) ∧
      bs.flatten = [0, 1, 2] ∧
      bs.length = (([0, 1, 2] : List Byte).length + 1023) / 1024 ∧
      (∀ b ∈ bs, b.length ≤ 1024) ∧
      (∀ b ∈ bs.dropLast, b.length = 1024)) :=
  ⟨by decide, relay_stream_frame_sequence [0, 1, 2] (by decide)⟩

/-- C9: `processAndSend` on an existing session with an empty buffer
returns normally without error, without opening a connection, and
without invoking the transcoder; the state is untouched. -/
theorem relay_empty_buffer_noop (env : Env) (st : SysState) (sid : String)
    (relay : RelaySession) (h1 : mapGet st.sessions sid = some relay)
    (h2 : relay.audioBuffer = []) :
    processAndSend env st sid =
      { result := .ok, state := st, frames := [], connected := false,
        transcoded := false, processedAudio := none } := by
  unfold processAndSend
  simp only [h1]
  rw [if_pos (by simp [h2])]

/-- Witness for C9 on a concrete one-session store. -/
theorem relay_empty_buffer_noop_witness :
    mapGet (⟨[("s1", ⟨false, [], "u", false⟩)], []⟩ : SysState).sessions "s1" =
      some ⟨false, [], "u", false⟩ ∧
    processAndSend ⟨⟨.exit 0, none⟩, ⟨none, none⟩⟩
        ⟨[("s1", ⟨false, [], "u", false⟩)], []⟩ "s1" =
      { result := .ok, state := ⟨[("s1", ⟨false, [], "u", false⟩)], []⟩,
        frames := [], connected := false, transcoded := false,
        processedAudio := none } :=
  ⟨by decide, relay_empty_buffer_noop _ _ _ ⟨false, [], "u", false⟩ (by decide) (by decide)⟩

/-- C6: on a session whose processing guard is set, `processAndSend`
observes the guard and returns normally: no error, no transcode, no
connection, state untouched. -/
theorem relay_processing_guard (env : Env) (st : SysState) (sid : String)
    (relay : RelaySession) (h1 : mapGet st.sessions sid = some relay)
    (h2 : relay.isProcessing = true) :
    processAndSend env st sid =
      { result := .ok, state := st, frames := [], connected := false,
        transcoded := false, processedAudio := none } := by
  unfold processAndSend
  simp only [h1]
  by_cases hb : relay.audioBuffer.length = 0
  · rw [if_pos hb]
  · rw [if_neg hb, if_pos h2]

/-- Witness for C6 on a concrete in-processing session. -/
theorem relay_processing_guard_witness :
    mapGet (⟨[("s1", ⟨false, [[1]], "u", true⟩)], []⟩ : SysState).sessions "s1" =
      some ⟨false, [[1]], "u", true⟩ ∧
    processAndSend ⟨⟨.exit 0, none⟩, ⟨none, none⟩⟩
        ⟨[("s1", ⟨false, [[1]], "u", true⟩)], []⟩ "s1" =
      { result := .ok, state := ⟨[("s1", ⟨false, [[1]], "u", true⟩)], []⟩,
        frames := [], connected := false, transcoded := false,
        processedAudio := none } :=
  ⟨by decide, relay_processing_guard _ _ _ ⟨false, [[1]], "u", true⟩ (by decide) (by decide)⟩

lemma create_of_has (st : Store) (sid u : String) (h : mapHas st sid = true) :
    create st sid u = st := by
  unfold create
  rw [if_pos h]

lemma create_of_not_has (st : Store) (sid u : String)
    (h : ¬ mapHas st sid = true) :
    create st sid u = st ++ [(sid, ⟨false, [], u, false⟩)] := by
  unfold create mapSet
  rw [if_neg h, if_neg h]

/-- C7: creating twice with the same id leaves exactly one session under
that id, and the second `create` is a no-op (store unchanged), so the
session\'s buffer, destination, connection and processing flag are not
reset. -/
theorem relay_create_idempotent (st : Store) (sid u1 u2 : String)
    (h : countKey st sid ≤ 1) :
    create (create st sid u1) sid u2 = create st sid u1 ∧
    countKey (create st sid u1) sid = 1 := by
  by_cases hh : mapHas st sid = true
  · have hst : create st sid u1 = st := create_of_has st sid u1 hh
    have hcnt := countKey_pos_of_has st sid hh
    refine ⟨?_, ?_⟩
    · rw [hst]
      exact create_of_has st sid u2 hh
    · rw [hst]
      omega
  · have hfalse : mapHas st sid = false := by simpa using hh
    have hset := create_of_not_has st sid u1 hh
    refine ⟨?_, ?_⟩
    · have hhas2 : mapHas (create st sid u1) sid = true := by
        rw [hset]
        simp [mapHas]
      exact create_of_has _ sid u2 hhas2
    · rw [hset, countKey_append_single, countKey_eq_zero_of_not_has st sid hfalse]

/-- Witness for C7 from the empty store. -/
theorem relay_create_idempotent_witness :
    countKey ([] : Store) "s1" ≤ 1 ∧
    (create (create [] "s1" "u1") "s1" "u2" = create [] "s1" "u1" ∧
     countKey (create [] "s1" "u1") "s1" = 1) :=
  ⟨by decide, relay_create_idempotent [] "s1" "u1" "u2" (by decide)⟩

/-- C8: `write` fails with the session-not-found error when the id is
absent (the store is not modified — the error carries no store) and
otherwise appends the chunk at the tail of the buffer, leaving the
earlier chunks unchanged, and reports the new total chunk count. -/
theorem relay_write_append (st : Store) (sid : String) (chunk : List Byte) :
    (mapGet st sid = none →
      write st sid chunk = .error ("Relay not found for session " ++ sid)) ∧
    (∀ relay : RelaySession, mapGet st sid = some relay →
      write st sid chunk =
        .ok (mapSet st sid
              { relay with audioBuffer := relay.audioBuffer ++ [chunk] },
            relay.audioBuffer.length + 1)) := by
  constructor
  · intro h
    unfold write
    simp only [h]
  · intro relay h
    unfold write
    simp only [h]
    simp [List.length_append]

/-- Witness for C8: both the error case and the append case at concrete
stores. -/
theorem relay_write_append_witness :
    write ([] : Store) "s1" [1] = .error ("Relay not found for session " ++ "s1") ∧
    write [("s1", ⟨false, [], "u", false⟩)] "s1" [1] =
      .ok (mapSet [("s1", ⟨false, [], "u", false⟩)] "s1"
            { socket := false, audioBuffer := [] ++ [[1]],
              meetingJoinUrl := "u", isProcessing := false },
          ([] : List (List Byte)).length + 1) :=
  ⟨(relay_write_append [] "s1" [1]).1 (by decide),
   (relay_write_append [("s1", ⟨false, [], "u", false⟩)] "s1" [1]).2
     ⟨false, [], "u", false⟩ (by decide)⟩

/-- Bridge: the observable outcome of `processAndSend` (once the guards
pass) is determined by the try block\'s outcome tuple. -/
lemma processAndSend_outcome (env : Env) (st : SysState) (sid : String)
    (relay : RelaySession)
    (h1 : mapGet st.sessions sid = some relay)
    (h2 : ¬ relay.audioBuffer = [])
    (h3 : relay.isProcessing = false)
    (res : PResult) (sess : Store) (fs : List Frame) (conn : Bool)
    (htry : tryStep env sid
        (mapSet st.sessions sid { relay with isProcessing := true })
        { relay with isProcessing := true }
        (match env.ffmpeg.output with
          | some data =>
            fsWrite (fsWrite st.files (tempInputFile sid) relay.audioBuffer.flatten)
              (tempOutputFile sid) data
          | none =>
            fsWrite st.files (tempInputFile sid) relay.audioBuffer.flatten)
      = (res, sess, fs, conn)) :
    (processAndSend env st sid).result = res ∧
    (processAndSend env st sid).frames = fs ∧
    (processAndSend env st sid).connected = conn ∧
    (res = .hung →
      (processAndSend env st sid).state =
        { sessions := sess,
          files :=
            match env.ffmpeg.output with
            | some data =>
              fsWrite (fsWrite st.files (tempInputFile sid) relay.audioBuffer.flatten)
                (tempOutputFile sid) data
            | none =>
              fsWrite st.files (tempInputFile sid) relay.audioBuffer.flatten }) := by
  have hlen : ¬ relay.audioBuffer.length = 0 := by
    simpa [List.length_eq_zero] using h2
  have hproc : ¬ relay.isProcessing = true := by simp [h3]
  unfold processAndSend
  simp only [h1]
  rw [if_neg hlen, if_neg hproc, htry]
  cases res with
  | hung => exact ⟨rfl, rfl, rfl, fun _ => rfl⟩
  | ok => exact ⟨rfl, rfl, rfl, fun hco => by simp at hco⟩
  | err e => exact ⟨rfl, rfl, rfl, fun hco => by simp at hco⟩

/-- C5: a non-zero converter exit makes `processAndSend` fail with the
error carrying the exit code; a missing output artifact (none produced
and no stale file) fails with the missing-output error; an empty output
artifact fails with the empty-output error. -/
theorem relay_transcode_failure (env : Env) (st : SysState) (sid : String)
    (relay : RelaySession) (c : Nat)
    (h1 : mapGet st.sessions sid = some relay)
    (h2 : ¬ relay.audioBuffer = [])
    (h3 : relay.isProcessing = false)
    (hc : env.ffmpeg.outcome = .exit c) :
    (¬ c = 0 → (processAndSend env st sid).result =
      .err ("ffmpeg exited with code " ++ toString c)) ∧
    (c = 0 → env.ffmpeg.output = none →
      fsExists st.files (tempOutputFile sid) = false →
      (processAndSend env st sid).result = .err "FFmpeg output file not created") ∧
    (c = 0 → env.ffmpeg.output = some [] →
      (processAndSend env st sid).result = .err "FFmpeg produced empty output") := by
  refine ⟨?_, ?_, ?_⟩
  · intro hcne
    have htc : transcodeWithFfmpeg env.ffmpeg =
        .error ("ffmpeg exited with code " ++ toString c) := by
      unfold transcodeWithFfmpeg
      simp only [hc]
    have htry : tryStep env sid
        (mapSet st.sessions sid { relay with isProcessing := true })
        { relay with isProcessing := true }
        (match env.ffmpeg.output with
          | some data =>
            fsWrite (fsWrite st.files (tempInputFile sid) relay.audioBuffer.flatten)
              (tempOutputFile sid) data
          | none =>
            fsWrite st.files (tempInputFile sid) relay.audioBuffer.flatten) =
        (.err ("ffmpeg exited with code " ++ toString c),
         mapSet st.sessions sid { relay with isProcessing := true }, [], false) := by
      unfold tryStep
      simp only [htc]
    exact (processAndSend_outcome env st sid relay h1 h2 h3 _ _ _ _ htry).1
  · intro hc0 houtp hstale
    subst hc0
    have htc : transcodeWithFfmpeg env.ffmpeg = .ok () := by
      unfold transcodeWithFfmpeg
      simp only [hc]
    have hex : fsExists
        (fsWrite st.files (tempInputFile sid) relay.audioBuffer.flatten)
        (tempOutputFile sid) = false := by
      rw [fsExists_write_ne _ _ _ _ (fun hh => tempFiles_ne sid hh.symm)]
      exact hstale
    have htry : tryStep env sid
        (mapSet st.sessions sid { relay with isProcessing := true })
        { relay with isProcessing := true }
        (match env.ffmpeg.output with
          | some data =>
            fsWrite (fsWrite st.files (tempInputFile sid) relay.audioBuffer.flatten)
              (tempOutputFile sid) data
          | none =>
            fsWrite st.files (tempInputFile sid) relay.audioBuffer.flatten) =
        (.err "FFmpeg output file not created",
         mapSet st.sessions sid { relay with isProcessing := true }, [], false) := by
      simp only [houtp]
      unfold tryStep
      simp only [htc]
      rw [if_neg (by simp [hex])]
    exact (processAndSend_outcome env st sid relay h1 h2 h3 _ _ _ _ htry).1
  · intro hc0 houtp
    subst hc0
    have htc : transcodeWithFfmpeg env.ffmpeg = .ok () := by
      unfold transcodeWithFfmpeg
      simp only [hc]
    have htry : tryStep env sid
        (mapSet st.sessions sid { relay with isProcessing := true })
        { relay with isProcessing := true }
        (match env.ffmpeg.output with
          | some data =>
            fsWrite (fsWrite st.files (tempInputFile sid) relay.audioBuffer.flatten)
              (tempOutputFile sid) data
          | none =>
            fsWrite st.files (tempInputFile sid) relay.audioBuffer.flatten) =
        (.err "FFmpeg produced empty output",
         mapSet st.sessions sid { relay with isProcessing := true }, [], false) := by
      simp only [houtp]
      unfold tryStep
      simp only [htc]
      rw [if_pos (fsExists_write_self _ _ _), fsRead_write_self]
      simp
    exact (processAndSend_outcome env st sid relay h1 h2 h3 _ _ _ _ htry).1

/-- Witness for C5: concrete exit code 1. -/
theorem relay_transcode_failure_witness :
    (processAndSend ⟨⟨.exit 1, none⟩, ⟨none, none⟩⟩
        ⟨[("s1", ⟨false, [[1]], "u", false⟩)], []⟩ "s1").result =
      .err ("ffmpeg exited with code " ++ toString 1) :=
  (relay_transcode_failure ⟨⟨.exit 1, none⟩, ⟨none, none⟩⟩
      ⟨[("s1", ⟨false, [[1]], "u", false⟩)], []⟩ "s1" ⟨false, [[1]], "u", false⟩ 1
      (by decide) (by decide) (by decide) rfl).1 (by decide)

/-- C4: on every exit path — normal return, transcode failure, or
streaming failure — both temp artifacts are removed and the processing
flag is reset. -/
theorem relay_cleanup_all_exits (env : Env) (st : SysState) (sid : String)
    (relay : RelaySession)
    (h1 : mapGet st.sessions sid = some relay)
    (h2 : ¬ relay.audioBuffer = [])
    (h3 : relay.isProcessing = false)
    (h4 : ¬ (processAndSend env st sid).result = .hung) :
    fsExists (processAndSend env st sid).state.files (tempInputFile sid) = false ∧
    fsExists (processAndSend env st sid).state.files (tempOutputFile sid) = false ∧
    (mapGet (processAndSend env st sid).state.sessions sid).map
      RelaySession.isProcessing = some false := by
  rcases processAndSend_cleanup_cases env st sid relay h1 h2 h3 with hcase | hcase
  · exact absurd hcase h4
  · exact ⟨hcase.1, hcase.2.1, hcase.2.2.1⟩

/-- Witness for C4 on a concrete transcode-failure run. -/
theorem relay_cleanup_all_exits_witness :
    ¬ (processAndSend ⟨⟨.exit 1, none⟩, ⟨none, none⟩⟩
        ⟨[("s1", ⟨false, [[1]], "u", false⟩)], []⟩ "s1").result = .hung ∧
    (fsExists (processAndSend ⟨⟨.exit 1, none⟩, ⟨none, none⟩⟩
        ⟨[("s1", ⟨false, [[1]], "u", false⟩)], []⟩ "s1").state.files
        (tempInputFile "s1") = false ∧
     fsExists (processAndSend ⟨⟨.exit 1, none⟩, ⟨none, none⟩⟩
        ⟨[("s1", ⟨false, [[1]], "u", false⟩)], []⟩ "s1").state.files
        (tempOutputFile "s1") = false ∧
     (mapGet (processAndSend ⟨⟨.exit 1, none⟩, ⟨none, none⟩⟩
        ⟨[("s1", ⟨false, [[1]], "u", false⟩)], []⟩ "s1").state.sessions "s1").map
       RelaySession.isProcessing = some false) :=
  ⟨by decide, relay_cleanup_all_exits _ _ _ ⟨false, [[1]], "u", false⟩
    (by decide) (by decide) (by decide) (by decide)⟩

/-- C2 counterexample: after a hard streaming failure (socket error)
the session\'s connection field is non-null — the code never clears
`relay.socket`, so the claim that the connection field is cleared on
hard failure is false. -/
theorem relay_socket_not_cleared_cex :
    (processAndSend ⟨⟨.exit 0, some [5]⟩, ⟨some "boom", none⟩⟩
        ⟨[("s1", ⟨false, [[1]], "u", false⟩)], []⟩ "s1").result = .err "boom" ∧
    (mapGet (processAndSend ⟨⟨.exit 0, some [5]⟩, ⟨some "boom", none⟩⟩
        ⟨[("s1", ⟨false, [[1]], "u", false⟩)], []⟩ "s1").state.sessions "s1").map
      RelaySession.socket = some true := by
  decide

/-- C2 (amended): every hard failure of `processAndSend` removes both
temp artifacts and resets the processing flag, so a retry is safe; the
connection field however is NOT cleared: it keeps its prior value after
a transcode failure and is non-null after a streaming attempt. -/
theorem relay_hard_failure_state (env : Env) (st : SysState) (sid : String)
    (relay : RelaySession) (e : String)
    (h1 : mapGet st.sessions sid = some relay)
    (h2 : ¬ relay.audioBuffer = [])
    (h3 : relay.isProcessing = false)
    (h4 : (processAndSend env st sid).result = .err e) :
    fsExists (processAndSend env st sid).state.files (tempInputFile sid) = false ∧
    fsExists (processAndSend env st sid).state.files (tempOutputFile sid) = false ∧
    (mapGet (processAndSend env st sid).state.sessions sid).map
      RelaySession.isProcessing = some false ∧
    (mapGet (processAndSend env st sid).state.sessions sid).map
      RelaySession.socket =
        some (relay.socket || (processAndSend env st sid).connected) := by
  rcases processAndSend_cleanup_cases env st sid relay h1 h2 h3 with hcase | hcase
  · rw [h4] at hcase
    simp at hcase
  · exact hcase

/-- Witness for C2 (amended) on a concrete transcode-failure run. -/
theorem relay_hard_failure_state_witness :
    (processAndSend ⟨⟨.exit 1, none⟩, ⟨some "boom", none⟩⟩
        ⟨[("s2", ⟨false, [[7]], "u", false⟩)], []⟩ "s2").result =
      .err ("ffmpeg exited with code 1") ∧
    (fsExists (processAndSend ⟨⟨.exit 1, none⟩, ⟨some "boom", none⟩⟩
        ⟨[("s2", ⟨false, [[7]], "u", false⟩)], []⟩ "s2").state.files
        (tempInputFile "s2") = false ∧
     fsExists (processAndSend ⟨⟨.exit 1, none⟩, ⟨some "boom", none⟩⟩
        ⟨[("s2", ⟨false, [[7]], "u", false⟩)], []⟩ "s2").state.files
        (tempOutputFile "s2") = false ∧
     (mapGet (processAndSend ⟨⟨.exit 1, none⟩, ⟨some "boom", none⟩⟩
        ⟨[("s2", ⟨false, [[7]], "u", false⟩)], []⟩ "s2").state.sessions "s2").map
       RelaySession.isProcessing = some false ∧
     (mapGet (processAndSend ⟨⟨.exit 1, none⟩, ⟨some "boom", none⟩⟩
        ⟨[("s2", ⟨false, [[7]], "u", false⟩)], []⟩ "s2").state.sessions "s2").map
       RelaySession.socket =
         some (false || (processAndSend ⟨⟨.exit 1, none⟩, ⟨some "boom", none⟩⟩
           ⟨[("s2", ⟨false, [[7]], "u", false⟩)], []⟩ "s2").connected)) :=
  ⟨by decide, relay_hard_failure_state _ _ _ ⟨false, [[7]], "u", false⟩
    ("ffmpeg exited with code 1") (by decide) (by decide) (by decide) (by decide)⟩

/-- C10: if the socket leaves the open state before all frames are sent
(observed from iteration `k` of the send loop), the loop stops with only
the first `k` binary frames after the start frame — no stop frame — and
the promise never settles (`.hung`), so the enclosing call never
returns: the processing flag stays true and both temp artifacts remain
on disk. -/
theorem relay_midstream_close_hangs (env : Env) (st : SysState) (sid : String)
    (relay : RelaySession) (data : List Byte) (k : Nat)
    (h1 : mapGet st.sessions sid = some relay)
    (h2 : ¬ relay.audioBuffer = [])
    (h3 : relay.isProcessing = false)
    (ho : env.ffmpeg.outcome = .exit 0)
    (hd : env.ffmpeg.output = some data)
    (hdne : ¬ data = [])
    (hce : env.socket.connectError = none)
    (hck : env.socket.closesBefore = some k)
    (hkle : k ≤ (pcmChunks data).length) :
    (processAndSend env st sid).result = .hung ∧
    (processAndSend env st sid).frames =
      Frame.start :: ((pcmChunks data).take k).map Frame.binary ∧
    (mapGet (processAndSend env st sid).state.sessions sid).map
      RelaySession.isProcessing = some true ∧
    fsExists (processAndSend env st sid).state.files (tempInputFile sid) = true ∧
    fsExists (processAndSend env st sid).state.files (tempOutputFile sid) = true := by
  have htc : transcodeWithFfmpeg env.ffmpeg = .ok () := by
    unfold transcodeWithFfmpeg
    simp only [ho]
  have hstc : sendToTingwu env.socket data =
      (.hung, Frame.start :: ((pcmChunks data).take k).map Frame.binary) := by
    unfold sendToTingwu
    simp only [hce, hck]
    have hrw := sendChunks_closed data k 0 0 (Nat.zero_le k)
      (by simpa using hkle)
    rw [List.drop_zero, Nat.sub_zero] at hrw
    rw [hrw]
    simp
  have htry : tryStep env sid
      (mapSet st.sessions sid { relay with isProcessing := true })
      { relay with isProcessing := true }
      (match env.ffmpeg.output with
        | some d =>
          fsWrite (fsWrite st.files (tempInputFile sid) relay.audioBuffer.flatten)
            (tempOutputFile sid) d
        | none =>
          fsWrite st.files (tempInputFile sid) relay.audioBuffer.flatten) =
      (.hung,
       mapSet (mapSet st.sessions sid { relay with isProcessing := true }) sid
         { relay with isProcessing := true, socket := true },
       Frame.start :: ((pcmChunks data).take k).map Frame.binary, true) := by
    simp only [hd]
    unfold tryStep
    simp only [htc]
    rw [if_pos (fsExists_write_self _ _ _), fsRead_write_self]
    rw [if_neg (by simpa [List.length_eq_zero] using hdne)]
    simp only [hstc]
  obtain ⟨hres, hfr, _, hstate⟩ :=
    processAndSend_outcome env st sid relay h1 h2 h3 _ _ _ _ htry
  have hstate' := hstate rfl
  simp only [hd] at hstate'
  refine ⟨hres, hfr, ?_, ?_, ?_⟩
  · rw [hstate']
    dsimp only
    rw [mapGet_set_self]
    rfl
  · rw [hstate']
    dsimp only
    rw [fsExists_write_ne _ _ _ _ (tempFiles_ne sid)]
    exact fsExists_write_self _ _ _
  · rw [hstate']
    dsimp only
    exact fsExists_write_self _ _ _

/-- Witness for C10: socket observed closed before the first binary
frame (`k = 0`) on a concrete session. -/
theorem relay_midstream_close_hangs_witness :
    mapGet (⟨[("s1", ⟨false, [[9]], "u", false⟩)], []⟩ : SysState).sessions "s1" =
      some ⟨false, [[9]], "u", false⟩ ∧
    ((processAndSend ⟨⟨.exit 0, some [1, 2, 3]⟩, ⟨none, some 0⟩⟩
        ⟨[("s1", ⟨false, [[9]], "u", false⟩)], []⟩ "s1").result = .hung ∧
     (processAndSend ⟨⟨.exit 0, some [1, 2, 3]⟩, ⟨none, some 0⟩⟩
        ⟨[("s1", ⟨false, [[9]], "u", false⟩)], []⟩ "s1").frames =
       Frame.start :: ((pcmChunks [1, 2, 3]).take 0).map Frame.binary ∧
     (mapGet (processAndSend ⟨⟨.exit 0, some [1, 2, 3]⟩, ⟨none, some 0⟩⟩
        ⟨[("s1", ⟨false, [[9]], "u", false⟩)], []⟩ "s1").state.sessions "s1").map
       RelaySession.isProcessing = some true ∧
     fsExists (processAndSend ⟨⟨.exit 0, some [1, 2, 3]⟩, ⟨none, some 0⟩⟩
        ⟨[("s1", ⟨false, [[9]], "u", false⟩)], []⟩ "s1").state.files
        (tempInputFile "s1") = true ∧
     fsExists (processAndSend ⟨⟨.exit 0, some [1, 2, 3]⟩, ⟨none, some 0⟩⟩
        ⟨[("s1", ⟨false, [[9]], "u", false⟩)], []⟩ "s1").state.files
        (tempOutputFile "s1") = true) :=
  ⟨by decide, relay_midstream_close_hangs _ _ _ ⟨false, [[9]], "u", false⟩ [1, 2, 3] 0
    (by decide) (by decide) (by decide) rfl rfl (by decide) rfl rfl (Nat.zero_le _)⟩

/-- C3 counterexample: a completed (resolved) `processAndSend` cycle
does NOT empty the buffer — the session still holds the same chunks,
and a second call processes (re-sends) the same concatenated audio
instead of being an empty no-op. -/
theorem relay_buffer_not_drained_cex :
    (processAndSend ⟨⟨.exit 0, some [5]⟩, ⟨none, none⟩⟩
        ⟨[("s1", ⟨false, [[1, 2]], "u", false⟩)], []⟩ "s1").result = .ok ∧
    (mapGet (processAndSend ⟨⟨.exit 0, some [5]⟩, ⟨none, none⟩⟩
        ⟨[("s1", ⟨false, [[1, 2]], "u", false⟩)], []⟩ "s1").state.sessions
        "s1").map RelaySession.audioBuffer = some [[1, 2]] ∧
    (processAndSend ⟨⟨.exit 0, some [5]⟩, ⟨none, none⟩⟩
      (processAndSend ⟨⟨.exit 0, some [5]⟩, ⟨none, none⟩⟩
        ⟨[("s1", ⟨false, [[1, 2]], "u", false⟩)], []⟩ "s1").state
      "s1").processedAudio = some [1, 2] := by
  have hb := processAndSend_benign ⟨⟨.exit 0, some [5]⟩, ⟨none, none⟩⟩
    ⟨[("s1", ⟨false, [[1, 2]], "u", false⟩)], []⟩ "s1"
    ⟨false, [[1, 2]], "u", false⟩ [5]
    (by decide) (by decide) (by decide) rfl rfl (by decide) rfl rfl
  rw [hb]
  refine ⟨rfl, by decide, ?_⟩
  have hb2 := processAndSend_benign ⟨⟨.exit 0, some [5]⟩, ⟨none, none⟩⟩
    (runFinally "s1"
      (mapSet (mapSet (⟨[("s1", ⟨false, [[1, 2]], "u", false⟩)], []⟩ :
          SysState).sessions "s1"
          { (⟨false, [[1, 2]], "u", false⟩ : RelaySession) with isProcessing := true })
        "s1"
        { (⟨false, [[1, 2]], "u", false⟩ : RelaySession) with
            isProcessing := true, socket := true })
      (fsWrite (fsWrite (⟨[("s1", ⟨false, [[1, 2]], "u", false⟩)], []⟩ :
          SysState).files (tempInputFile "s1")
          ([[1, 2]] : List (List Byte)).flatten)
        (tempOutputFile "s1") [5]))
    "s1" ⟨true, [[1, 2]], "u", false⟩ [5]
    (by decide) (by decide) (by decide) rfl rfl (by decide) rfl rfl
  rw [hb2]
  rfl

/-- C3 (amended): processing consumes the in-order concatenation of all
buffered chunks but never empties the buffer; after a completed cycle a
second `processAndSend` finds the same non-empty buffer and processes
the same concatenated audio again rather than being a no-op. -/
theorem relay_buffer_preserved (env env2 : Env) (st : SysState) (sid : String)
    (relay : RelaySession)
    (h1 : mapGet st.sessions sid = some relay)
    (h2 : ¬ relay.audioBuffer = [])
    (h3 : relay.isProcessing = false) :
    (processAndSend env st sid).processedAudio =
      some relay.audioBuffer.flatten ∧
    (mapGet (processAndSend env st sid).state.sessions sid).map
      RelaySession.audioBuffer = some relay.audioBuffer ∧
    (¬ (processAndSend env st sid).result = .hung →
      (processAndSend env2 (processAndSend env st sid).state sid).processedAudio =
        some relay.audioBuffer.flatten) := by
  obtain ⟨hpa, relay2, hget, hbuf, hproc2⟩ :=
    processAndSend_session_after env st sid relay h1 h2 h3
  refine ⟨hpa, ?_, ?_⟩
  · rw [hget]
    simp [hbuf]
  · intro hne
    have h2b : ¬ relay2.audioBuffer = [] := by
      rw [hbuf]
      exact h2
    obtain ⟨hpa2, -⟩ :=
      processAndSend_session_after env2 _ sid relay2 hget h2b (hproc2 hne)
    rw [hpa2, hbuf]

/-- Witness for C3 (amended) on a concrete session and environment. -/
theorem relay_buffer_preserved_witness :
    mapGet (⟨[("s1", ⟨false, [[1, 2]], "u", false⟩)], []⟩ : SysState).sessions
      "s1" = some ⟨false, [[1, 2]], "u", false⟩ ∧
    ((processAndSend ⟨⟨.exit 1, none⟩, ⟨none, none⟩⟩
        ⟨[("s1", ⟨false, [[1, 2]], "u", false⟩)], []⟩ "s1").processedAudio =
      some ([[1, 2]] : List (List Byte)).flatten ∧
     (mapGet (processAndSend ⟨⟨.exit 1, none⟩, ⟨none, none⟩⟩
        ⟨[("s1", ⟨false, [[1, 2]], "u", false⟩)], []⟩ "s1").state.sessions
        "s1").map RelaySession.audioBuffer = some [[1, 2]] ∧
     (¬ (processAndSend ⟨⟨.exit 1, none⟩, ⟨none, none⟩⟩
        ⟨[("s1", ⟨false, [[1, 2]], "u", false⟩)], []⟩ "s1").result = .hung →
      (processAndSend ⟨⟨.exit 0, some [9]⟩, ⟨none, none⟩⟩
        (processAndSend ⟨⟨.exit 1, none⟩, ⟨none, none⟩⟩
          ⟨[("s1", ⟨false, [[1, 2]], "u", false⟩)], []⟩ "s1").state
        "s1").processedAudio = some ([[1, 2]] : List (List Byte)).flatten)) :=
  ⟨by decide, relay_buffer_preserved ⟨⟨.exit 1, none⟩, ⟨none, none⟩⟩
    ⟨⟨.exit 0, some [9]⟩, ⟨none, none⟩⟩ _ _ ⟨false, [[1, 2]], "u", false⟩
    (by decide) (by decide) (by decide)⟩

end AudioRelay
